import Mathlib

/-!
Shallow embedding of the proxy-with-cache server (src/main.rs) and proofs of
the specification claims C1-C10.

The source is a single-file hyper-based HTTP proxy:
- `Controller::process` fingerprints the inbound request by hashing its Debug
  rendering with `DefaultHasher` (SipHash-1-3 with zero keys), consults an
  in-memory `HashMap<u64, CachedResponse>` guarded by a mutex, serves fresh
  entries, and otherwise calls `Controller::proxy`, caching whatever `Ok`
  response comes back with expiry `now + TTL`.
- `Controller::proxy` removes the `Origin` header; if absent it answers
  `400 Bad Request`; otherwise it rebuilds the target URI from the origin
  value plus the request's path-and-query and forwards through the hyper
  client, with `.unwrap()` calls that panic when the origin value is not
  visible ASCII or the rebuilt URI does not parse.
- `Controller::clear_expired_cache` loops forever, each second retaining only
  entries whose expiry lies in the future.

Machine integers are modeled as `Nat` reduced mod `2 ^ 64` where overflow
matters; `SystemTime` instants are `Nat` seconds; `Duration::new(30, 0)` is
the constant `TTL = 30`.  The hyper transport is an oracle parameter
`Upstream`; `hyper::Error` values are opaque `TransportError` tokens that are
only propagated, never inspected.
-/

namespace ProxyCache

/-! ## Data model -/

/-- Opaque token standing for a `hyper::Error` transport failure; the code
only propagates such values (`?`), never inspects them. -/
abbrev TransportError := Nat

/-- A parsed HTTP request as the service closure receives it
(`Request<Body>`): method, target URI (origin-form for inbound traffic),
protocol version, the header multimap in stored (wire) order with names
lowercase as hyper normalizes them, and the body bytes.  The inbound body is
a stream whose content is not part of the Debug rendering. -/
structure RustRequest where
  method : String
  uri : String
  version : String
  headers : List (String × String)
  body : List Nat
deriving DecidableEq, Repr

/-- A parsed HTTP response (`Response<Body>` after buffering): status code,
protocol version, headers in stored order, body bytes. -/
structure RustResponse where
  status : Nat
  version : String
  headers : List (String × String)
  body : List Nat
deriving DecidableEq, Repr

/-- `struct CachedResponse` from the source: a buffered upstream response
plus its absolute expiry instant. -/
structure CachedResponse where
  status : Nat
  version : String
  headers : List (String × String)
  body : List Nat
  expiry : Nat
deriving DecidableEq, Repr

/-- `u64` fingerprint key. -/
abbrev Fingerprint := Nat

/-- The `HashMap<u64, CachedResponse>` cache, modeled as an association list
with at most one entry per key (`cacheInsert` overwrites, as
`HashMap::insert` does); `cacheGet` is order-insensitive under that
invariant. -/
abbrev Cache := List (Fingerprint × CachedResponse)

/-- `cache.get(&req_hash)`. -/
def cacheGet (cache : Cache) (fp : Fingerprint) : Option CachedResponse :=
  (cache.find? (fun e => e.1 == fp)).map (fun e => e.2)

/-- `cache.insert(req_hash, cached)`: unconditionally overwrites any existing
entry for that key. -/
def cacheInsert (cache : Cache) (fp : Fingerprint) (v : CachedResponse) : Cache :=
  (fp, v) :: cache.filter (fun e => e.1 != fp)

/-- One iteration of `clear_expired_cache`:
`cache.retain(|_, cached| cached.expiry > now)`. -/
def clearExpiredOnce (now : Nat) (cache : Cache) : Cache :=
  cache.filter (fun e => decide (now < e.2.expiry))

/-- `const TTL: Duration = Duration::new(30, 0)` in seconds. -/
def TTL : Nat := 30

/-- Building a `CachedResponse` from response parts with a given expiry
(source lines 74-80: status/version/headers cloned, body buffered). -/
def cachedOf (resp : RustResponse) (expiry : Nat) : CachedResponse :=
  { status := resp.status, version := resp.version, headers := resp.headers,
    body := resp.body, expiry := expiry }

/-- The response synthesized on a cache hit (source lines 52-57: builder with
status, version, body, then the stored headers assigned wholesale). -/
def responseOfCached (c : CachedResponse) : RustResponse :=
  { status := c.status, version := c.version, headers := c.headers, body := c.body }

/-! ## Rust `DefaultHasher` = SipHash-1-3 with zero keys

`calculate_hash` feeds `format!("{:?}", req)` through
`std::collections::hash_map::DefaultHasher`, i.e. `SipHasher13` keyed with
`(0, 0)`; hashing a `String` writes its UTF-8 bytes followed by a single
`0xff` byte.  All 64-bit words are `Nat` values kept below `2 ^ 64`. -/

/-- Wrapping 64-bit addition. -/
def wadd (a b : Nat) : Nat := (a + b) % 2 ^ 64

/-- 64-bit rotate left (operands below `2 ^ 64`). -/
def rotl (x n : Nat) : Nat := ((x <<< n) % 2 ^ 64) ||| (x >>> (64 - n))

/-- The four 64-bit SipHash state words. -/
structure SipState where
  v0 : Nat
  v1 : Nat
  v2 : Nat
  v3 : Nat
deriving DecidableEq, Repr

/-- One SipRound (the `compress!` macro of `std`'s `SipHasher13`). -/
def sipRound (s : SipState) : SipState :=
  let v0 := wadd s.v0 s.v1
  let v1 := rotl s.v1 13 ^^^ v0
  let v0 := rotl v0 32
  let v2 := wadd s.v2 s.v3
  let v3 := rotl s.v3 16 ^^^ v2
  let v0 := wadd v0 v3
  let v3 := rotl v3 21 ^^^ v0
  let v2 := wadd v2 v1
  let v1 := rotl v1 17 ^^^ v2
  let v2 := rotl v2 32
  ⟨v0, v1, v2, v3⟩

/-- Absorb one 8-byte message word: `v3 ^= m`, one round, `v0 ^= m`. -/
def sipCompress (s : SipState) (m : Nat) : SipState :=
  let s := sipRound { s with v3 := s.v3 ^^^ m }
  { s with v0 := s.v0 ^^^ m }

/-- Little-endian value of a byte list (first byte least significant). -/
def leWord (bs : List Nat) : Nat := bs.foldr (fun b acc => b + acc * 256) 0

/-- Split a message into its 8-byte little-endian words; the final (possibly
empty) partial word carries `len % 256` in its top byte, as in the SipHash
padding rule. -/
def sipWords (len : Nat) : List Nat → List Nat
  | b0 :: b1 :: b2 :: b3 :: b4 :: b5 :: b6 :: b7 :: rest =>
      leWord [b0, b1, b2, b3, b4, b5, b6, b7] :: sipWords len rest
  | rest => [leWord rest + len % 256 * 2 ^ 56]

/-- SipHash-1-3 of a byte list: one compression round per word, `v2 ^= 0xff`,
three finalization rounds, XOR of the four state words. -/
def sipHash13 (k0 k1 : Nat) (msg : List Nat) : Nat :=
  let s0 : SipState :=
    ⟨k0 ^^^ 0x736f6d6570736575, k1 ^^^ 0x646f72616e646f6d,
     k0 ^^^ 0x6c7967656e657261, k1 ^^^ 0x7465646279746573⟩
  let s := (sipWords msg.length msg).foldl sipCompress s0
  let s := sipRound (sipRound (sipRound { s with v2 := s.v2 ^^^ 0xff }))
  s.v0 ^^^ s.v1 ^^^ s.v2 ^^^ s.v3

/-- UTF-8 bytes of one character. -/
def charBytes (c : Char) : List Nat :=
  let n := c.toNat
  if n < 0x80 then [n]
  else if n < 0x800 then [0xC0 ||| n >>> 6, 0x80 ||| (n &&& 0x3F)]
  else if n < 0x10000 then
    [0xE0 ||| n >>> 12, 0x80 ||| (n >>> 6 &&& 0x3F), 0x80 ||| (n &&& 0x3F)]
  else
    [0xF0 ||| n >>> 18, 0x80 ||| (n >>> 12 &&& 0x3F),
     0x80 ||| (n >>> 6 &&& 0x3F), 0x80 ||| (n &&& 0x3F)]

/-- UTF-8 bytes of a string. -/
def strBytes (s : String) : List Nat := (s.data.map charBytes).flatten

/-- `Controller::calculate_hash` instantiated at `String` (the only call
site): `DefaultHasher::new()` is `SipHasher13` with keys `(0, 0)`, and
`<str as Hash>::hash` writes the bytes followed by `0xff`. -/
def calculate_hash (t : String) : Nat := sipHash13 0 0 (strBytes t ++ [0xff])

/-! ## `format!("{:?}", req)` — the Debug rendering hashed by `process`

`http::Request`'s Debug impl prints
`Request \x7b method: M, uri: U, version: V, headers: H, body: B \x7d` with
the method, URI and version printed plainly, the header map as
`\x7b"name": "value", ... \x7d` in stored order (names quoted as `str` Debug;
values quoted with `"` escaped to `\"` and non-visible bytes to `\xH`/`\xHH`,
backslash NOT escaped), and the streaming inbound body as `Body(Streaming)`
with no content. -/

/-- `is_visible_ascii` from the `http` crate's `HeaderValue`: bytes 32-126
and tab. -/
def visibleByte (n : Nat) : Bool := (decide (32 ≤ n) && decide (n < 127)) || decide (n = 9)

/-- Character form of `visibleByte` (header value bytes are modeled as the
characters with the same code). -/
def visibleChar (c : Char) : Bool := visibleByte c.toNat

/-- `HeaderValue::to_str` succeeds exactly when every byte is visible ASCII
(incl. tab); `origin_address.to_str().unwrap()` panics otherwise. -/
def toStrOk (v : String) : Bool := v.data.all visibleChar

/-- Lowercase hex digit (for the `\x{:x}` escape). -/
def hexDigitChar (n : Nat) : Char :=
  if n < 10 then Char.ofNat (48 + n) else Char.ofNat (87 + n)

/-- Escaping of one header-value byte in `HeaderValue`'s Debug rendering:
a quote becomes backslash-quote, visible bytes pass through, other bytes
become a `\x` hex escape without zero padding. -/
def escChar (c : Char) : List Char :=
  if c = '"' then ['\\', '"']
  else if visibleChar c then [c]
  else if c.toNat < 16 then ['\\', 'x', hexDigitChar c.toNat]
  else ['\\', 'x', hexDigitChar (c.toNat / 16), hexDigitChar (c.toNat % 16)]

/-- Escape a whole value. -/
def escList : List Char → List Char
  | [] => []
  | c :: cs => escChar c ++ escList cs

/-- Debug rendering of a `HeaderValue` (non-sensitive): the escaped bytes in
double quotes. -/
def renderValue (v : String) : String := "\"" ++ String.mk (escList v.data) ++ "\""

/-- Debug rendering of one header entry inside the map: the name quoted (as
`str` Debug; legal lowercase header names need no escapes) and the value. -/
def renderEntry (p : String × String) : String :=
  "\"" ++ p.1 ++ "\": " ++ renderValue p.2

/-- The comma-separated entry list produced by `debug_map`. -/
def renderEntries : List (String × String) → String
  | [] => ""
  | [p] => renderEntry p
  | p :: q :: rest => renderEntry p ++ ", " ++ renderEntries (q :: rest)

/-- Debug rendering of the header map. -/
def renderHeaders (hs : List (String × String)) : String :=
  "\x7b" ++ renderEntries hs ++ "\x7d"

/-- `format!("{:?}", req)` for the inbound request: the `http::Request`
Debug rendering, headers in stored (wire) order, body content absent. -/
def debugFormat (req : RustRequest) : String :=
  "Request \x7b method: " ++ req.method ++ ", uri: " ++ req.uri ++
    ", version: " ++ req.version ++ ", headers: " ++ renderHeaders req.headers ++
    ", body: Body(Streaming) \x7d"

/-- `let req_hash = self.calculate_hash(&format!("{:?}", req))` (line 45),
computed on the request as received, before `proxy` strips the origin
header. -/
def fingerprint (req : RustRequest) : Fingerprint :=
  calculate_hash (debugFormat req)

/-! ## `Controller::proxy` and `Controller::process` -/

/-- The hyper client (`self.client.request`) as an oracle: every call either
returns a parsed response or a transport error. -/
abbrev Upstream := RustRequest → Except TransportError RustResponse

/-- `req.headers_mut().remove("Origin")`: `HeaderMap::remove` deletes every
value stored under the (case-insensitively matched, here lowercase) name and
returns the first one. -/
def headerRemove (name : String) (hs : List (String × String)) :
    Option String × List (String × String) :=
  match hs.find? (fun p => p.1 == name) with
  | some p => (some p.2, hs.filter (fun q => q.1 != name))
  | none => (none, hs)

/-- `Uri::path_and_query` of the inbound target: present for origin-form
targets (those starting with a slash), absent otherwise. -/
def uriPathAndQuery (uri : String) : Option String :=
  if uri.data.head? = some '/' then some uri else none

/-- `req.uri().path_and_query().map(|x| x.as_str()).unwrap_or("/")`. -/
def pathAndQueryOf (req : RustRequest) : String :=
  match uriPathAndQuery req.uri with
  | some pq => pq
  | none => "/"

/-- Models `uri_string.parse::<Uri>()` acceptance at the precision the claims
need: a string that is empty or contains a space is rejected (as the real
parser rejects it, since space is outside the URI character set); the model
is permissive otherwise and is only exercised through hypotheses and at
concrete inputs on which the real parser agrees. -/
def uriParseOk (s : String) : Bool :=
  !s.data.isEmpty && s.data.all (fun c => c != ' ')

/-- `Response::default()` with status set to `BAD_REQUEST`: 400, HTTP/1.1,
no headers, empty body. -/
def badRequestResponse : RustResponse :=
  { status := 400, version := "HTTP/1.1", headers := [], body := [] }

/-- Outcome of `Controller::proxy`, keeping the request actually handed to
the hyper client so that theorems can inspect it:
`upstreamResponse`/`transportError` are the `Ok`/`Err` results of
`self.client.request(req).await`, `badRequest` is the synthesized 400 for a
missing origin header, and `panicked` is the `.unwrap()` panic on an origin
value that is not visible ASCII or a rebuilt URI that does not parse. -/
inductive ProxyResult where
  | upstreamResponse : RustRequest → RustResponse → ProxyResult
  | transportError : RustRequest → TransportError → ProxyResult
  | badRequest : ProxyResult
  | panicked : ProxyResult
deriving DecidableEq, Repr

/-- `Controller::proxy` (lines 88-111). -/
def proxy (client : Upstream) (req : RustRequest) : ProxyResult :=
  match headerRemove "origin" req.headers with
  | (some origin_address, remaining) =>
      if toStrOk origin_address then
        let uri_string := origin_address ++ pathAndQueryOf req
        if uriParseOk uri_string then
          match client { req with headers := remaining, uri := uri_string } with
          | .ok res => .upstreamResponse { req with headers := remaining, uri := uri_string } res
          | .error e => .transportError { req with headers := remaining, uri := uri_string } e
        else .panicked
      else .panicked
  | (none, _) => .badRequest

/-- The request `proxy` submitted to the hyper client, when it submitted
one. -/
def sentRequest : ProxyResult → Option RustRequest
  | .upstreamResponse r _ => some r
  | .transportError r _ => some r
  | .badRequest => none
  | .panicked => none

/-- The cache consultation of lines 47-65: the entry is served only if
present and `cached_response.expiry > SystemTime::now()`. -/
def cacheLookup (cache : Cache) (fp : Fingerprint) (now : Nat) : Option CachedResponse :=
  match cacheGet cache fp with
  | some cached_response => if now < cached_response.expiry then some cached_response else none
  | none => none

/-- What `Controller::process` hands back to hyper: an `Ok` response, a
propagated transport error (`?`), or a panic escaping the handler. -/
inductive ProcessOutcome where
  | ok : RustResponse → ProcessOutcome
  | transportError : TransportError → ProcessOutcome
  | panicked : ProcessOutcome
deriving DecidableEq, Repr

/-- Result of one `process` call: the outcome, the cache afterwards, and how
many times the hyper client was invoked during the call. -/
structure ProcessResult where
  outcome : ProcessOutcome
  cache : Cache
  upstreamCalls : Nat
deriving DecidableEq, Repr

/-- `Controller::process` (lines 44-86).  `nowLookup` and `nowStore` are the
two `SystemTime::now()` readings: the freshness test during lookup and the
expiry base when storing (the upstream round trip separates them). -/
def process (client : Upstream) (nowLookup nowStore : Nat) (cache : Cache)
    (req : RustRequest) : ProcessResult :=
  let req_hash := fingerprint req
  match cacheLookup cache req_hash nowLookup with
  | some cached_response =>
      { outcome := .ok (responseOfCached cached_response), cache := cache, upstreamCalls := 0 }
  | none =>
      match proxy client req with
      | .upstreamResponse _ res =>
          { outcome := .ok res,
            cache := cacheInsert cache req_hash (cachedOf res (nowStore + TTL)),
            upstreamCalls := 1 }
      | .transportError _ e =>
          { outcome := .transportError e, cache := cache, upstreamCalls := 1 }
      | .badRequest =>
          { outcome := .ok badRequestResponse,
            cache := cacheInsert cache req_hash (cachedOf badRequestResponse (nowStore + TTL)),
            upstreamCalls := 0 }
      | .panicked => { outcome := .panicked, cache := cache, upstreamCalls := 0 }

/-- A sequence of `process` calls for the same request at the given times
(used for both lookup and store instants), threading the cache; returns the
final cache, the total number of upstream calls, and the outcomes. -/
def processTrace (client : Upstream) (req : RustRequest) (times : List Nat)
    (cache : Cache) : Cache × Nat × List ProcessOutcome :=
  match times with
  | [] => (cache, 0, [])
  | t :: ts =>
      let r := process client t t cache req
      let rest := processTrace client req ts r.cache
      (rest.1, r.upstreamCalls + rest.2.1, r.outcome :: rest.2.2)

/-! ## Helper lemmas -/

/-- Inserting under a key makes that key's lookup return the new value
(`HashMap::insert` overwrite semantics). -/
theorem cacheGet_insert_self (c : Cache) (fp : Fingerprint) (v : CachedResponse) :
    cacheGet (cacheInsert c fp v) fp = some v := by
  simp [cacheGet, cacheInsert, List.find?_cons]

/-- The cache-hit synthesis restores the buffered response exactly. -/
theorem responseOfCached_cachedOf (r : RustResponse) (e : Nat) :
    responseOfCached (cachedOf r e) = r := rfl

/-- A fresh cache hit: `process` answers from the cache, mutates nothing and
never touches the upstream client. -/
theorem process_hit (client : Upstream) (t t' : Nat) (c : Cache) (req : RustRequest)
    (cr : CachedResponse) (hget : cacheGet c (fingerprint req) = some cr)
    (hfresh : t < cr.expiry) :
    process client t t' c req
      = { outcome := .ok (responseOfCached cr), cache := c, upstreamCalls := 0 } := by
  simp [process, cacheLookup, hget, hfresh]

/-- Folding `process` over times at which every call is a no-mutation hit
with the same response. -/
theorem processTrace_const (client : Upstream) (req : RustRequest) (resp : RustResponse)
    (c : Cache) (ts : List Nat)
    (hstep : ∀ t ∈ ts, process client t t c req
      = { outcome := .ok resp, cache := c, upstreamCalls := 0 }) :
    processTrace client req ts c = (c, 0, ts.map fun _ => ProcessOutcome.ok resp) := by
  induction ts with
  | nil => rfl
  | cons t ts ih =>
      have h1 := hstep t (List.mem_cons_self t ts)
      have ih' := ih fun u hu => hstep u (List.mem_cons_of_mem t hu)
      simp [processTrace, h1, ih']

/-! ## Claim C4 -/

/-- Claim C4 (confirmed): a cache entry inserted at time `T` with TTL `Δ`
(expiry `T + Δ`) is returned by the lookup of lines 47-65 at any time in
`[T, T + Δ)`, verbatim (the synthesized response restores the stored status,
version, headers and body exactly), and the lookup at any time at or after
`T + Δ` behaves as if the entry were absent. -/
theorem C4_cache_freshness (cache : Cache) (fp : Fingerprint) (resp : RustResponse)
    (T Δ t : Nat) (_hT : T ≤ t) :
    (t < T + Δ →
      cacheLookup (cacheInsert cache fp (cachedOf resp (T + Δ))) fp t
        = some (cachedOf resp (T + Δ))
      ∧ responseOfCached (cachedOf resp (T + Δ)) = resp)
    ∧ (T + Δ ≤ t →
      cacheLookup (cacheInsert cache fp (cachedOf resp (T + Δ))) fp t = none) := by
  constructor
  · intro h
    refine ⟨?_, rfl⟩
    simp [cacheLookup, cacheGet_insert_self, cachedOf, h]
  · intro h
    simp only [cacheLookup, cacheGet_insert_self, cachedOf]
    rw [if_neg (by omega)]

/-- Sample response reused by concrete witnesses. -/
def respW : RustResponse where
  status := 200
  version := "HTTP/1.1"
  headers := [("content-type", "text/plain")]
  body := [104, 105]

/-- Witness for C4 at `T = 10`, `Δ = 5`, `t = 12`. -/
theorem C4_cache_freshness_witness :
    (12 < 10 + 5 →
      cacheLookup (cacheInsert [] 7 (cachedOf respW (10 + 5))) 7 12
        = some (cachedOf respW (10 + 5))
      ∧ responseOfCached (cachedOf respW (10 + 5)) = respW)
    ∧ (10 + 5 ≤ 12 →
      cacheLookup (cacheInsert [] 7 (cachedOf respW (10 + 5))) 7 12 = none) :=
  C4_cache_freshness [] 7 respW 10 5 12 (by decide)

/-! ## Claim C7 -/

/-- Claim C7 (confirmed): one run of the Sweeper's `retain` at time `now`
keeps exactly the entries whose expiry is strictly in the future, so an
entry inserted at `T` with TTL `Δ` is gone after a sweep at `T + Δ + ε` for
any `ε > 0`, while an entry is retained iff it was present and its expiry
exceeds `now`. -/
theorem C7_sweep_exact (cache : Cache) (fp : Fingerprint) (resp : RustResponse)
    (T Δ ε : Nat) (hε : 0 < ε) :
    cacheGet (clearExpiredOnce (T + Δ + ε)
      (cacheInsert cache fp (cachedOf resp (T + Δ)))) fp = none
    ∧ (∀ e, e ∈ clearExpiredOnce (T + Δ + ε) (cacheInsert cache fp (cachedOf resp (T + Δ)))
        ↔ (e ∈ cacheInsert cache fp (cachedOf resp (T + Δ)) ∧ T + Δ + ε < e.2.expiry)) := by
  constructor
  · have hnone : List.find? (fun e => e.1 == fp)
        (clearExpiredOnce (T + Δ + ε) (cacheInsert cache fp (cachedOf resp (T + Δ)))) = none := by
      rw [List.find?_eq_none]
      intro x hx
      have hx1 : x ∈ cacheInsert cache fp (cachedOf resp (T + Δ)) :=
        (List.mem_filter.mp hx).1
      have hx2 : T + Δ + ε < x.2.expiry := by
        have := (List.mem_filter.mp hx).2
        simpa using this
      have hxne : x.1 ≠ fp := by
        simp only [cacheInsert] at hx1
        rcases List.mem_cons.mp hx1 with hhead | htail
        · rw [hhead] at hx2
          exact absurd hx2 (by simp only [cachedOf]; omega)
        · have := (List.mem_filter.mp htail).2
          simpa using this
      simpa using hxne
    simp [cacheGet, hnone]
  · intro e
    simp [clearExpiredOnce, List.mem_filter]

/-- Witness for C7 at `T = 10`, `Δ = 5`, `ε = 1`. -/
theorem C7_sweep_exact_witness :
    cacheGet (clearExpiredOnce (10 + 5 + 1)
      (cacheInsert [] 7 (cachedOf respW (10 + 5)))) 7 = none
    ∧ (∀ e, e ∈ clearExpiredOnce (10 + 5 + 1) (cacheInsert [] 7 (cachedOf respW (10 + 5)))
        ↔ (e ∈ cacheInsert [] 7 (cachedOf respW (10 + 5)) ∧ 10 + 5 + 1 < e.2.expiry)) :=
  C7_sweep_exact [] 7 respW 10 5 1 (by decide)

/-! ## Claim C8 -/

/-- Claim C8 (confirmed): serving any number of cache hits between `T` and
`T + Δ` from an entry expiring at `T + Δ` leaves the cache mapping exactly
as it was — no insertion, no expiry refresh — and each hit returns the
synthesis of the stored entry. -/
theorem C8_hit_no_mutation (client : Upstream) (req : RustRequest) (cache : Cache)
    (cr : CachedResponse) (T Δ : Nat) (ts : List Nat)
    (hget : cacheGet cache (fingerprint req) = some cr)
    (hexp : cr.expiry = T + Δ)
    (hts : ∀ t ∈ ts, T ≤ t ∧ t < T + Δ) :
    processTrace client req ts cache
      = (cache, 0, ts.map fun _ => ProcessOutcome.ok (responseOfCached cr)) := by
  refine processTrace_const client req (responseOfCached cr) cache ts ?_
  intro t ht
  exact process_hit client t t cache req cr hget (by rw [hexp]; exact (hts t ht).2)

/-! ## Claim C1 -/

/-- Claim C1 (amended): when the inbound request carries no origin directive
header and misses the cache, `process` answers `400 Bad Request` with an
empty body and never contacts the upstream client — but, contrary to the
claim's "cache mapping is left unchanged", the 400 response is inserted into
the cache under the request's fingerprint (overwriting any entry there),
because the synthesized 400 flows back through the ordinary miss path of
lines 67-84. -/
theorem C1_missing_origin (client : Upstream) (tL tS : Nat) (cache : Cache)
    (req : RustRequest)
    (hno : ∀ p ∈ req.headers, p.1 ≠ "origin")
    (hmiss : cacheLookup cache (fingerprint req) tL = none) :
    process client tL tS cache req
      = { outcome := .ok badRequestResponse,
          cache := cacheInsert cache (fingerprint req)
            (cachedOf badRequestResponse (tS + TTL)),
          upstreamCalls := 0 } := by
  have hfind : req.headers.find? (fun p => p.1 == "origin") = none := by
    rw [List.find?_eq_none]
    intro p hp
    simpa using hno p hp
  have hproxy : proxy client req = .badRequest := by
    simp [proxy, headerRemove, hfind]
  simp [process, hmiss, hproxy]

/-- A request with no origin directive header. -/
def reqNoOrigin : RustRequest where
  method := "GET"
  uri := "/"
  version := "HTTP/1.1"
  headers := [("host", "example.com")]
  body := []

/-- An upstream oracle that would fail every call; the claims using it prove
it is never consulted. -/
def refusingClient : Upstream := fun _ => .error 0

/-- Witness for the amended C1 on `reqNoOrigin` against the empty cache. -/
theorem C1_missing_origin_witness :
    process refusingClient 3 4 [] reqNoOrigin
      = { outcome := .ok badRequestResponse,
          cache := cacheInsert [] (fingerprint reqNoOrigin)
            (cachedOf badRequestResponse (4 + TTL)),
          upstreamCalls := 0 } :=
  C1_missing_origin refusingClient 3 4 [] reqNoOrigin (by decide) rfl

/-- Counterexample to C1 as stated: processing `reqNoOrigin` (no origin
header) against the empty cache returns the 400 without an upstream call,
yet the cache mapping does not stay unchanged — an entry is inserted. -/
theorem C1_counterexample :
    (process refusingClient 0 0 [] reqNoOrigin).outcome = .ok badRequestResponse
    ∧ (process refusingClient 0 0 [] reqNoOrigin).upstreamCalls = 0
    ∧ (process refusingClient 0 0 [] reqNoOrigin).cache ≠ ([] : Cache) := by
  refine ⟨rfl, rfl, ?_⟩
  intro h
  have hlen := congrArg List.length h
  simp [process, cacheLookup, cacheGet, proxy, headerRemove, reqNoOrigin,
    cacheInsert] at hlen

/-! ## Claim C3 -/

/-- A request whose origin directive value cannot be combined into a valid
outbound URI: the space makes `uri_string.parse::<Uri>()` fail. -/
def reqBadOrigin : RustRequest where
  method := "GET"
  uri := "/"
  version := "HTTP/1.1"
  headers := [("origin", "ht tp://bad")]
  body := []

/-- Claim C3 (code bug): on an origin directive value that cannot be
combined into a valid outbound URI the code does NOT answer 400 — it panics
at `uri_string.parse().unwrap()` (line 99), crashing the handler; the
upstream client is still never contacted and the cache is untouched. -/
theorem C3_unparsable_origin_panics :
    proxy refusingClient reqBadOrigin = .panicked
    ∧ process refusingClient 0 0 [] reqBadOrigin
        = { outcome := .panicked, cache := [], upstreamCalls := 0 } := by
  exact ⟨rfl, rfl⟩

/-! ## Claims C5, C6, C9 share a forwardable request -/

/-- A response the mock upstream returns. -/
def respUp : RustResponse where
  status := 200
  version := "HTTP/1.1"
  headers := [("content-type", "text/plain"), ("x-served-by", "upstream")]
  body := [104, 101, 108, 108, 111]

/-- Mock upstream that always succeeds with `respUp`. -/
def okClient : Upstream := fun _ => .ok respUp

/-- Mock upstream that always fails with transport error 7. -/
def failingClient : Upstream := fun _ => .error 7

/-- A forwardable request: origin directive present and well-formed. -/
def reqWithOrigin : RustRequest where
  method := "GET"
  uri := "/a?b=c"
  version := "HTTP/1.1"
  headers := [("host", "proxy.local"), ("origin", "http://upstream.example"), ("accept", "*/*")]
  body := []

/-- The rewritten request `proxy` sends upstream for `reqWithOrigin`. -/
def outWithOrigin : RustRequest where
  method := "GET"
  uri := "http://upstream.example/a?b=c"
  version := "HTTP/1.1"
  headers := [("host", "proxy.local"), ("accept", "*/*")]
  body := []

/-! ## Claim C5 -/

/-- Claim C5 (confirmed): on a cache miss whose forward succeeds, the client
receives exactly the upstream response (same status, version, headers and
body bytes), and running any number of further identical requests at times
within the TTL window makes no further upstream call and returns the same
bytes each time: one upstream call total, and the cache holds exactly the
inserted copy throughout. -/
theorem C5_miss_then_cached (client : Upstream) (cache : Cache)
    (req outReq : RustRequest) (resp : RustResponse) (T : Nat) (ts : List Nat)
    (hmiss : cacheLookup cache (fingerprint req) T = none)
    (hproxy : proxy client req = .upstreamResponse outReq resp)
    (hts : ∀ t ∈ ts, t < T + TTL) :
    processTrace client req (T :: ts) cache
      = (cacheInsert cache (fingerprint req) (cachedOf resp (T + TTL)), 1,
         ProcessOutcome.ok resp :: ts.map fun _ => ProcessOutcome.ok resp) := by
  have h1 : process client T T cache req
      = { outcome := .ok resp,
          cache := cacheInsert cache (fingerprint req) (cachedOf resp (T + TTL)),
          upstreamCalls := 1 } := by
    simp [process, hmiss, hproxy]
  have h2 : processTrace client req ts
      (cacheInsert cache (fingerprint req) (cachedOf resp (T + TTL)))
      = (cacheInsert cache (fingerprint req) (cachedOf resp (T + TTL)), 0,
         ts.map fun _ => ProcessOutcome.ok resp) := by
    refine processTrace_const client req resp _ ts ?_
    intro t ht
    have hstep := process_hit client t t
      (cacheInsert cache (fingerprint req) (cachedOf resp (T + TTL))) req
      (cachedOf resp (T + TTL)) (cacheGet_insert_self cache (fingerprint req) _)
      (hts t ht)
    rwa [responseOfCached_cachedOf] at hstep
  simp [processTrace, h1, h2]

/-- Witness for C5: one miss at `T = 0` followed by hits at 5 and 29. -/
theorem C5_miss_then_cached_witness :
    processTrace okClient reqWithOrigin [0, 5, 29] []
      = (cacheInsert [] (fingerprint reqWithOrigin) (cachedOf respUp (0 + TTL)), 1,
         ProcessOutcome.ok respUp :: [5, 29].map fun _ => ProcessOutcome.ok respUp) :=
  C5_miss_then_cached okClient [] reqWithOrigin outWithOrigin respUp 0 [5, 29]
    rfl (by decide) (by decide)

/-! ## Claim C6 -/

/-- Claim C6 (confirmed): whenever `proxy` hands a request to the upstream
client (successfully or not), that request's target URI is the origin
directive value concatenated with the original path-and-query (defaulting to
`/`), it carries no origin directive header — the remaining headers are
exactly the original ones with every origin entry removed, in order — and
its method, version and body are the original ones unchanged. -/
theorem C6_outbound_rewrite (client : Upstream) (req : RustRequest) (v : String)
    (remaining : List (String × String)) (out : RustRequest)
    (hrm : headerRemove "origin" req.headers = (some v, remaining))
    (hstr : toStrOk v = true)
    (hparse : uriParseOk (v ++ pathAndQueryOf req) = true)
    (hsent : sentRequest (proxy client req) = some out) :
    out.uri = v ++ pathAndQueryOf req
    ∧ out.headers = req.headers.filter (fun q => q.1 != "origin")
    ∧ (∀ p ∈ out.headers, p.1 ≠ "origin")
    ∧ out.method = req.method ∧ out.version = req.version ∧ out.body = req.body := by
  have hrem : remaining = req.headers.filter (fun q => q.1 != "origin") := by
    unfold headerRemove at hrm
    cases hfind : req.headers.find? (fun p => p.1 == "origin") with
    | none => rw [hfind] at hrm; cases hrm
    | some p => rw [hfind] at hrm; cases hrm; rfl
  have hout : out = { req with headers := remaining, uri := v ++ pathAndQueryOf req } := by
    simp only [proxy, hrm, hstr, if_true, hparse] at hsent
    cases hcl : client { req with headers := remaining, uri := v ++ pathAndQueryOf req } with
    | ok r => rw [hcl] at hsent; simp [sentRequest] at hsent; exact hsent.symm
    | error e => rw [hcl] at hsent; simp [sentRequest] at hsent; exact hsent.symm
  subst hout
  refine ⟨rfl, hrem, ?_, rfl, rfl, rfl⟩
  intro p hp
  rw [hrem] at hp
  have := (List.mem_filter.mp hp).2
  simpa using this

/-- Witness for C6 on `reqWithOrigin`. -/
theorem C6_outbound_rewrite_witness :
    outWithOrigin.uri = "http://upstream.example" ++ pathAndQueryOf reqWithOrigin
    ∧ outWithOrigin.headers = reqWithOrigin.headers.filter (fun q => q.1 != "origin")
    ∧ (∀ p ∈ outWithOrigin.headers, p.1 ≠ "origin")
    ∧ outWithOrigin.method = reqWithOrigin.method
    ∧ outWithOrigin.version = reqWithOrigin.version
    ∧ outWithOrigin.body = reqWithOrigin.body :=
  C6_outbound_rewrite okClient reqWithOrigin "http://upstream.example"
    [("host", "proxy.local"), ("accept", "*/*")] outWithOrigin
    (by decide) (by decide) (by decide) (by decide)

/-! ## Claim C9 -/

/-- Claim C9 (confirmed): when the upstream call fails with a transport
error, `process` propagates that very error to the inbound caller, leaves
the cache exactly as it was (no insert, no overwrite), and makes exactly one
upstream call (no retry). -/
theorem C9_transport_error_propagates (client : Upstream) (cache : Cache)
    (req : RustRequest) (tL tS : Nat) (v : String)
    (remaining : List (String × String)) (e : TransportError)
    (hmiss : cacheLookup cache (fingerprint req) tL = none)
    (hrm : headerRemove "origin" req.headers = (some v, remaining))
    (hstr : toStrOk v = true)
    (hparse : uriParseOk (v ++ pathAndQueryOf req) = true)
    (herr : client { req with headers := remaining, uri := v ++ pathAndQueryOf req }
      = .error e) :
    process client tL tS cache req
      = { outcome := .transportError e, cache := cache, upstreamCalls := 1 } := by
  have hproxy : proxy client req
      = .transportError { req with headers := remaining, uri := v ++ pathAndQueryOf req } e := by
    simp [proxy, hrm, hstr, hparse, herr]
  simp [process, hmiss, hproxy]

/-- Witness for C9 on `reqWithOrigin` with `failingClient`. -/
theorem C9_transport_error_propagates_witness :
    process failingClient 0 0 [] reqWithOrigin
      = { outcome := .transportError 7, cache := [], upstreamCalls := 1 } :=
  C9_transport_error_propagates failingClient [] reqWithOrigin 0 0
    "http://upstream.example" [("host", "proxy.local"), ("accept", "*/*")] 7
    rfl (by decide) (by decide) (by decide) rfl

/-- Witness for C8: two hits at 15 and 20 on an entry expiring at
`10 + 30`. -/
theorem C8_hit_no_mutation_witness :
    processTrace refusingClient reqNoOrigin [15, 20]
      [(fingerprint reqNoOrigin, cachedOf respW (10 + 30))]
      = ([(fingerprint reqNoOrigin, cachedOf respW (10 + 30))], 0,
         [15, 20].map fun _ => ProcessOutcome.ok (responseOfCached (cachedOf respW (10 + 30)))) :=
  C8_hit_no_mutation refusingClient reqNoOrigin
    [(fingerprint reqNoOrigin, cachedOf respW (10 + 30))]
    (cachedOf respW (10 + 30)) 10 30 [15, 20]
    (by simp [cacheGet, List.find?_cons]) rfl (by decide)

/-! ## String cancellation and injectivity of the Debug rendering

Needed for C10: with every byte of the two origin values visible ASCII, the
Debug rendering of the header map is injective in the origin value, so the
two hashing inputs differ. -/

/-- `String.append` distributes over `data`. -/
theorem strData_append (a b : String) : (a ++ b).data = a.data ++ b.data :=
  String.data_append a b

/-- Right factors cancel in list concatenation. -/
theorem listCancelRight {α : Type} {a b s : List α} (h : a ++ s = b ++ s) : a = b := by
  have hl : a.length = b.length := by
    have := congrArg List.length h
    simp only [List.length_append] at this
    omega
  exact (List.append_inj h hl).1

/-- Left factors cancel in string concatenation. -/
theorem strCancelLeft {a s t : String} (h : a ++ s = a ++ t) : s = t := by
  apply String.ext
  have h2 : a.data ++ s.data = a.data ++ t.data := by
    rw [← strData_append, ← strData_append, h]
  exact List.append_cancel_left h2

/-- Right factors cancel in string concatenation. -/
theorem strCancelRight {a b s : String} (h : a ++ s = b ++ s) : a = b := by
  apply String.ext
  have h2 : a.data ++ s.data = b.data ++ s.data := by
    rw [← strData_append, ← strData_append, h]
  exact listCancelRight h2

/-- Equal strings with a common prefix and a common suffix have equal
middles. -/
theorem strMidCancel {p q x y : String} (h : p ++ x ++ q = p ++ y ++ q) : x = y :=
  strCancelLeft (strCancelRight h)

/-- On a visible byte, the escaping has only the quote rule. -/
theorem escChar_visible (c : Char) (h : visibleChar c = true) :
    escChar c = if c = '"' then ['\\', '"'] else [c] := by
  unfold escChar
  by_cases hq : c = '"'
  · simp [hq]
  · simp [hq, h]

/-- The escaping of a visible string never begins with a bare quote. -/
theorem escList_head_ne_quote (s : List Char) (hvis : ∀ c ∈ s, visibleChar c = true)
    (l : List Char) : escList s ≠ '"' :: l := by
  cases s with
  | nil => simp [escList]
  | cons c cs =>
      rw [escList, escChar_visible c (hvis c (List.mem_cons_self c cs))]
      by_cases hq : c = '"'
      · simp [hq]
      · simp [hq]

/-- The quote-escaping is injective on visible strings (this fails for
opaque bytes, where `\xff` collides with the four literal characters
backslash-x-f-f; see the C10 counterexample). -/
theorem escList_inj (s : List Char) : ∀ t : List Char,
    (∀ c ∈ s, visibleChar c = true) → (∀ c ∈ t, visibleChar c = true) →
    escList s = escList t → s = t := by
  induction s with
  | nil =>
      intro t _ hvt h
      cases t with
      | nil => rfl
      | cons d ds =>
          rw [escList, escList, escChar_visible d (hvt d (List.mem_cons_self d ds))] at h
          by_cases hq : d = '"' <;> simp [hq] at h
  | cons c cs ih =>
      intro t hvs hvt h
      cases t with
      | nil =>
          rw [escList, escList, escChar_visible c (hvs c (List.mem_cons_self c cs))] at h
          by_cases hq : c = '"' <;> simp [hq] at h
      | cons d ds =>
          have hvc := hvs c (List.mem_cons_self c cs)
          have hvd := hvt d (List.mem_cons_self d ds)
          have hvs' : ∀ x ∈ cs, visibleChar x = true :=
            fun x hx => hvs x (List.mem_cons_of_mem c hx)
          have hvt' : ∀ x ∈ ds, visibleChar x = true :=
            fun x hx => hvt x (List.mem_cons_of_mem d hx)
          rw [escList, escList, escChar_visible c hvc, escChar_visible d hvd] at h
          by_cases hcq : c = '"' <;> by_cases hdq : d = '"'
          · subst hcq; subst hdq
            injection h with hH hT
            injection hT with hH2 hT2
            rw [ih ds hvs' hvt' hT2]
          · rw [if_pos hcq, if_neg hdq] at h
            injection h with hH hT
            exact absurd hT.symm (escList_head_ne_quote ds hvt' _)
          · rw [if_neg hcq, if_pos hdq] at h
            injection h with hH hT
            exact absurd hT (escList_head_ne_quote cs hvs' _)
          · rw [if_neg hcq, if_neg hdq] at h
            injection h with hH hT
            rw [hH, ih ds hvs' hvt' hT]

/-- The quoted Debug rendering of header values is injective on visible
ASCII values. -/
theorem renderValue_inj {v w : String} (hv : toStrOk v = true) (hw : toStrOk w = true)
    (h : renderValue v = renderValue w) : v = w := by
  unfold renderValue at h
  have h1 : String.mk (escList v.data) = String.mk (escList w.data) := strMidCancel h
  have h2 : escList v.data = escList w.data := by
    injection h1
  have hvv : ∀ c ∈ v.data, visibleChar c = true := by
    simpa [toStrOk, List.all_eq_true] using hv
  have hvw : ∀ c ∈ w.data, visibleChar c = true := by
    simpa [toStrOk, List.all_eq_true] using hw
  exact String.ext (escList_inj v.data w.data hvv hvw h2)

/-- Unfolding `renderEntries` on a cons with a nonempty tail. -/
theorem renderEntries_cons (p : String × String) (l : List (String × String))
    (hl : l ≠ []) :
    renderEntries (p :: l) = renderEntry p ++ ", " ++ renderEntries l := by
  cases l with
  | nil => exact absurd rfl hl
  | cons q rest => rfl

/-- Two renderings of header lists that differ only in the value at one
position determine equal renderings of that value. -/
theorem renderEntries_mid_inj (n v w : String) :
    ∀ pre post : List (String × String),
    renderEntries (pre ++ (n, v) :: post) = renderEntries (pre ++ (n, w) :: post) →
    renderValue v = renderValue w := by
  intro pre
  induction pre with
  | nil =>
      intro post h
      simp only [List.nil_append] at h
      cases post with
      | nil =>
          unfold renderEntries renderEntry at h
          exact strCancelLeft h
      | cons q rest =>
          rw [renderEntries_cons (n, v) (q :: rest) (by simp),
            renderEntries_cons (n, w) (q :: rest) (by simp)] at h
          have h1 : renderEntry (n, v) ++ ", " = renderEntry (n, w) ++ ", " :=
            strCancelRight h
          have h2 : renderEntry (n, v) = renderEntry (n, w) := strCancelRight h1
          unfold renderEntry at h2
          exact strCancelLeft h2
  | cons e pre ih =>
      intro post h
      rw [List.cons_append, List.cons_append,
        renderEntries_cons e (pre ++ (n, v) :: post) (by simp),
        renderEntries_cons e (pre ++ (n, w) :: post) (by simp)] at h
      exact ih post (strCancelLeft h)

/-- Two requests identical except in the value of an origin header entry in
the same position, both values visible ASCII and distinct, have distinct
Debug renderings — i.e. distinct hashing inputs. -/
theorem debugFormat_origin_ne (r1 r2 : RustRequest)
    (pre post : List (String × String)) (v1 v2 : String)
    (hm : r1.method = r2.method) (hu : r1.uri = r2.uri) (hv : r1.version = r2.version)
    (h1 : r1.headers = pre ++ ("origin", v1) :: post)
    (h2 : r2.headers = pre ++ ("origin", v2) :: post)
    (hok1 : toStrOk v1 = true) (hok2 : toStrOk v2 = true)
    (hne : v1 ≠ v2) : debugFormat r1 ≠ debugFormat r2 := by
  intro h
  apply hne
  unfold debugFormat at h
  rw [← hm, ← hu, ← hv] at h
  have h3 : renderHeaders r1.headers = renderHeaders r2.headers := strMidCancel h
  rw [h1, h2] at h3
  unfold renderHeaders at h3
  have h4 : renderEntries (pre ++ ("origin", v1) :: post)
      = renderEntries (pre ++ ("origin", v2) :: post) := strMidCancel h3
  exact renderValue_inj hok1 hok2 (renderEntries_mid_inj "origin" v1 v2 pre post h4)

/-! ## Claim C10 -/

/-- Claim C10 (amended): the fingerprint is computed over the request as
received, before the origin header is stripped, so the origin value is part
of the hashing input; for origin values made of visible ASCII bytes (the
same precondition `to_str` imposes before any forwarding succeeds), two
requests identical except in their origin directive values have different
hashing inputs, and sharing a cache entry (equal fingerprints) would require
a genuine hash collision between those distinct inputs. -/
theorem C10_fingerprint_covers_origin (r1 r2 : RustRequest)
    (pre post : List (String × String)) (v1 v2 : String)
    (hm : r1.method = r2.method) (hu : r1.uri = r2.uri) (hv : r1.version = r2.version)
    (h1 : r1.headers = pre ++ ("origin", v1) :: post)
    (h2 : r2.headers = pre ++ ("origin", v2) :: post)
    (hok1 : toStrOk v1 = true) (hok2 : toStrOk v2 = true)
    (hne : v1 ≠ v2) :
    debugFormat r1 ≠ debugFormat r2
    ∧ (fingerprint r1 = fingerprint r2 →
        debugFormat r1 ≠ debugFormat r2
        ∧ calculate_hash (debugFormat r1) = calculate_hash (debugFormat r2)) := by
  have hd := debugFormat_origin_ne r1 r2 pre post v1 v2 hm hu hv h1 h2 hok1 hok2 hne
  exact ⟨hd, fun hf => ⟨hd, hf⟩⟩

/-- Request identical to `reqOriginY` except in the origin value. -/
def reqOriginX : RustRequest where
  method := "GET"
  uri := "/"
  version := "HTTP/1.1"
  headers := [("host", "proxy.local"), ("origin", "http://a.example")]
  body := []

/-- Request identical to `reqOriginX` except in the origin value. -/
def reqOriginY : RustRequest where
  method := "GET"
  uri := "/"
  version := "HTTP/1.1"
  headers := [("host", "proxy.local"), ("origin", "http://b.example")]
  body := []

/-- Witness for the amended C10 on `reqOriginX` / `reqOriginY`. -/
theorem C10_fingerprint_covers_origin_witness :
    debugFormat reqOriginX ≠ debugFormat reqOriginY
    ∧ (fingerprint reqOriginX = fingerprint reqOriginY →
        debugFormat reqOriginX ≠ debugFormat reqOriginY
        ∧ calculate_hash (debugFormat reqOriginX)
          = calculate_hash (debugFormat reqOriginY)) :=
  C10_fingerprint_covers_origin reqOriginX reqOriginY [("host", "proxy.local")] []
    "http://a.example" "http://b.example" rfl rfl rfl rfl rfl
    (by decide) (by decide) (by decide)

/-- Origin value of four visible characters: backslash, x, f, f. -/
def reqEscLiteral : RustRequest where
  method := "GET"
  uri := "/"
  version := "HTTP/1.1"
  headers := [("origin", "\\xff")]
  body := []

/-- Origin value of the single opaque byte 0xff (a legal header value byte,
rendered by the Debug escaping as the same four characters). -/
def reqEscByte : RustRequest where
  method := "GET"
  uri := "/"
  version := "HTTP/1.1"
  headers := [("origin", String.mk [Char.ofNat 255])]
  body := []

/-- Counterexample to C10 as stated: two requests identical except in their
origin directive values whose hashing inputs are nevertheless EQUAL — the
Debug escaping renders the opaque byte 0xff and the four literal characters
backslash-x-f-f identically — so their fingerprints coincide and they do
share a cache entry. -/
theorem C10_counterexample :
    reqEscLiteral.method = reqEscByte.method
    ∧ reqEscLiteral.uri = reqEscByte.uri
    ∧ reqEscLiteral.version = reqEscByte.version
    ∧ reqEscLiteral.body = reqEscByte.body
    ∧ reqEscLiteral.headers = [("origin", "\\xff")]
    ∧ reqEscByte.headers = [("origin", String.mk [Char.ofNat 255])]
    ∧ "\\xff" ≠ String.mk [Char.ofNat 255]
    ∧ debugFormat reqEscLiteral = debugFormat reqEscByte
    ∧ fingerprint reqEscLiteral = fingerprint reqEscByte := by
  have h : debugFormat reqEscLiteral = debugFormat reqEscByte := by decide
  exact ⟨rfl, rfl, rfl, rfl, rfl, rfl, by decide, h, congrArg calculate_hash h⟩

/-! ## Claim C2 -/

/-- Headers `accept` then `origin` — the same set as `reqOrderB`, received
in the other wire order. -/
def reqOrderA : RustRequest where
  method := "GET"
  uri := "/"
  version := "HTTP/1.1"
  headers := [("accept", "*/*"), ("origin", "http://a")]
  body := []

/-- Headers `origin` then `accept` — the same set as `reqOrderA`, received
in the other wire order. -/
def reqOrderB : RustRequest where
  method := "GET"
  uri := "/"
  version := "HTTP/1.1"
  headers := [("origin", "http://a"), ("accept", "*/*")]
  body := []

set_option maxRecDepth 200000 in
/-- Claim C2 (code bug): the fingerprint is NOT invariant under header-order
normalization.  `reqOrderA` and `reqOrderB` have identical method, target,
version, body and the same headers up to order (a permutation), yet their
fingerprints differ, because `calculate_hash` consumes the Debug rendering,
which lists headers in stored wire order.  One request therefore misses the
cache entry populated by the other. -/
theorem C2_fingerprint_order_sensitive :
    reqOrderA.method = reqOrderB.method
    ∧ reqOrderA.uri = reqOrderB.uri
    ∧ reqOrderA.version = reqOrderB.version
    ∧ reqOrderA.body = reqOrderB.body
    ∧ reqOrderA.headers.Perm reqOrderB.headers
    ∧ fingerprint reqOrderA ≠ fingerprint reqOrderB := by
  refine ⟨rfl, rfl, rfl, rfl, ?_, by decide⟩
  exact List.Perm.swap ("origin", "http://a") ("accept", "*/*") []

end ProxyCache
